import Mathlib

/-!
Verification development for the code-archaeologist technical-debt analysis
pipeline.  The Python sources under `src/` are shallowly embedded as Lean
definitions: pure functions become Lean functions, the stateful stores become
explicit state passing over structures, Python floats are modelled as exact
rationals (`ℚ`), Python unbounded ints as `Int`/`Nat`, ISO timestamps as
naturals ordered chronologically (ISO-8601 strings of equal length compare
lexicographically in timestamp order).
-/

set_option maxRecDepth 4000

/-! ## Aggregation / scoring (src/agents/orchestrator.py) -/

/-- One entry of the `vulnerabilities` list produced by the CVE probe
(`cve_scanner.py`); the orchestrator reads only its `severity` field. -/
structure Vuln where
  package : String
  severity : String
deriving DecidableEq

/-- Result of the git probe (`git_analyzer.py`) as consumed by the
orchestrator: `risk_score` and `high_churn_files`. -/
structure GitAnalysis where
  risk_score : ℚ
  high_churn_files : List String
  total_commits : ℕ
deriving DecidableEq

/-- Result of the CVE probe as consumed by the orchestrator. -/
structure CveAnalysis where
  vulnerabilities : List Vuln
  total_dependencies : ℕ
deriving DecidableEq

/-- Result of the documentation probe as consumed by the orchestrator. -/
structure DocAnalysis where
  coverage : ℚ
  total_files : ℕ
deriving DecidableEq

/-- The `parallel_results` dictionary returned by `_run_parallel_agents`. -/
structure ParallelResults where
  git_analysis : GitAnalysis
  cve_analysis : CveAnalysis
  documentation_analysis : DocAnalysis
deriving DecidableEq

/-- Python `round(q)` for a rational: round to the nearest integer, ties to
the even integer (banker's rounding), as used by `round(impact_score, 2)`. -/
def roundHalfEven (q : ℚ) : ℤ :=
  if Int.fract q < 1/2 then ⌊q⌋
  else if 1/2 < Int.fract q then ⌊q⌋ + 1
  else if ⌊q⌋ % 2 = 0 then ⌊q⌋ else ⌊q⌋ + 1

/-- Python `round(q, 2)`: banker's rounding at two decimal places. -/
def pyRound2 (q : ℚ) : ℚ := (roundHalfEven (q * 100) : ℚ) / 100

/-- The severity-tier assignment of `_analyze_impact`:
`severity = "low"`, upgraded by the `> 70` / `> 50` / `> 30` tests. -/
def severityFor (score : ℚ) : String :=
  if score > 70 then "critical"
  else if score > 50 then "high"
  else if score > 30 then "medium"
  else "low"

/-- The message appended by `_identify_key_risks` when `risk_score > 50`. -/
def churnRiskMsg : String := "High code churn detected - potential stability issues"

/-- The f-string `f"Critical security vulnerabilities found: {len(critical_vulns)}"`. -/
def criticalVulnMsg (n : ℕ) : String :=
  "Critical security vulnerabilities found: " ++ toString n

/-- The message appended when `coverage < 0.5`. -/
def lowDocMsg : String := "Low documentation coverage - maintainability concern"

/-- The fallback returned when no risk rule fires. -/
def noRiskMsg : String := "No critical risks identified"

/-- `_identify_key_risks`: threshold rules in probe order (git, security,
documentation), falling back to a single canned message. -/
def identifyKeyRisks (pr : ParallelResults) : List String :=
  let gitRisks : List String :=
    if pr.git_analysis.risk_score > 50 then [churnRiskMsg] else []
  let criticalVulns : List Vuln :=
    pr.cve_analysis.vulnerabilities.filter (fun v => v.severity = "CRITICAL")
  let secRisks : List String :=
    if criticalVulns.length ≠ 0 then [criticalVulnMsg criticalVulns.length] else []
  let docRisks : List String :=
    if pr.documentation_analysis.coverage < 0.5 then [lowDocMsg] else []
  let risks := gitRisks ++ secRisks ++ docRisks
  if risks = [] then [noRiskMsg] else risks

/-- `_generate_recommendations`: threshold rules in probe order with its own
fallback message. -/
def generateRecommendations (pr : ParallelResults) : List String :=
  let gitRecs : List String :=
    if pr.git_analysis.high_churn_files ≠ [] then
      ["Review and refactor " ++ toString pr.git_analysis.high_churn_files.length
        ++ " high-churn files"] else []
  let secRecs : List String :=
    if pr.cve_analysis.vulnerabilities ≠ [] then
      ["Update " ++ toString pr.cve_analysis.vulnerabilities.length
        ++ " vulnerable dependencies immediately"] else []
  let docRecs : List String :=
    if pr.documentation_analysis.coverage < 0.7 then
      ["Improve documentation coverage to at least 70%"] else []
  let recs := gitRecs ++ secRecs ++ docRecs
  if recs = [] then ["Continue maintaining current standards"] else recs

/-- The numeric part of `_analyze_impact` before rounding:
`git_risk * 0.3 + min(cve_count * 20, 50) * 0.4 + (1 - doc_coverage) * 100 * 0.3`. -/
def rawImpactScore (gitRisk : ℚ) (cveCount : ℕ) (docCoverage : ℚ) : ℚ :=
  gitRisk * 0.3 + (min (cveCount * 20) 50 : ℕ) * 0.4 + (1 - docCoverage) * 100 * 0.3

/-- The dictionary returned by `_analyze_impact` (the `ai_analysis` narrative
text is produced by an external generation call and carried opaquely). -/
structure ImpactAnalysis where
  impact_score : ℚ
  severity : String
  key_risks : List String
  recommendations : List String
deriving DecidableEq

/-- `_analyze_impact`: impact score (rounded to 2 decimals), severity tier
from the unrounded score, key risks and recommendations. -/
def analyzeImpact (pr : ParallelResults) : ImpactAnalysis :=
  let gitRisk := pr.git_analysis.risk_score
  let cveCount := pr.cve_analysis.vulnerabilities.length
  let docCoverage := pr.documentation_analysis.coverage
  let impactScore := rawImpactScore gitRisk cveCount docCoverage
  { impact_score := pyRound2 impactScore
    severity := severityFor impactScore
    key_risks := identifyKeyRisks pr
    recommendations := generateRecommendations pr }

/-! ### Rounding lemmas -/

lemma roundHalfEven_le (q : ℚ) : roundHalfEven q ≤ ⌊q⌋ + 1 := by
  unfold roundHalfEven; split_ifs <;> omega

lemma le_roundHalfEven (q : ℚ) : ⌊q⌋ ≤ roundHalfEven q := by
  unfold roundHalfEven; split_ifs <;> omega

lemma roundHalfEven_mono {x y : ℚ} (h : x ≤ y) : roundHalfEven x ≤ roundHalfEven y := by
  have hf : ⌊x⌋ ≤ ⌊y⌋ := Int.floor_mono h
  rcases lt_or_eq_of_le hf with hlt | heq
  · calc roundHalfEven x ≤ ⌊x⌋ + 1 := roundHalfEven_le x
    _ ≤ ⌊y⌋ := by omega
    _ ≤ roundHalfEven y := le_roundHalfEven y
  · have hfr : Int.fract x ≤ Int.fract y := by
      unfold Int.fract; rw [heq]; linarith
    unfold roundHalfEven
    rw [heq]
    split_ifs <;> first | omega | linarith

lemma pyRound2_mono {x y : ℚ} (h : x ≤ y) : pyRound2 x ≤ pyRound2 y := by
  unfold pyRound2
  have h1 : roundHalfEven (x * 100) ≤ roundHalfEven (y * 100) :=
    roundHalfEven_mono (by linarith)
  have h2 : ((roundHalfEven (x * 100) : ℚ)) ≤ (roundHalfEven (y * 100) : ℚ) := by
    exact_mod_cast h1
  linarith

/-! ### Message distinctness -/

lemma criticalVulnMsg_head (n : ℕ) : (criticalVulnMsg n).data.head? = some 'C' := rfl

lemma criticalVulnMsg_ne (n : ℕ) :
    criticalVulnMsg n ≠ churnRiskMsg ∧ criticalVulnMsg n ≠ lowDocMsg ∧
      criticalVulnMsg n ≠ noRiskMsg := by
  refine ⟨?_, ?_, ?_⟩ <;>
    · intro h
      have h2 : (criticalVulnMsg n).data.head? = _ := congrArg (fun s => s.data.head?) h
      rw [criticalVulnMsg_head n] at h2
      exact absurd h2 (by decide)

/-- C1: for every probe-result triple the aggregation computes the impact
score as `gitRisk*0.3 + min(cveCount*20, 50)*0.4 + (1-docCoverage)*100*0.3`
rounded to 2 decimals, and the severity tier uses exclusive lower bounds, so
a score of exactly 70 is "high", 70.01 is "critical", 50 is "medium" and 30
is "low". -/
theorem impact_score_formula_and_boundaries (pr : ParallelResults) :
    (analyzeImpact pr).impact_score =
      pyRound2 (pr.git_analysis.risk_score * 0.3
        + (min (pr.cve_analysis.vulnerabilities.length * 20) 50 : ℕ) * 0.4
        + (1 - pr.documentation_analysis.coverage) * 100 * 0.3)
    ∧ (analyzeImpact pr).severity =
        severityFor (rawImpactScore pr.git_analysis.risk_score
          pr.cve_analysis.vulnerabilities.length pr.documentation_analysis.coverage)
    ∧ severityFor 70 = "high"
    ∧ severityFor (70.01 : ℚ) = "critical"
    ∧ severityFor 50 = "medium"
    ∧ severityFor 30 = "low" := by
  refine ⟨rfl, rfl, ?_, ?_, ?_, ?_⟩ <;> (unfold severityFor; norm_num)

/-- C8: holding the other two inputs fixed, the aggregation score is
non-decreasing in the git risk score and in the CVE count (and constant once
the CVE term reaches its 50-point cap at `cveCount ≥ 3`), and non-increasing
in documentation coverage. -/
theorem impact_score_monotone (g g' : ℚ) (c c' : ℕ) (d d' : ℚ)
    (hg : g ≤ g') (hc : c ≤ c') (hd : d ≤ d') :
    pyRound2 (rawImpactScore g c d) ≤ pyRound2 (rawImpactScore g' c d)
    ∧ pyRound2 (rawImpactScore g c d) ≤ pyRound2 (rawImpactScore g c' d)
    ∧ (3 ≤ c → pyRound2 (rawImpactScore g c d) = pyRound2 (rawImpactScore g 3 d))
    ∧ pyRound2 (rawImpactScore g c d') ≤ pyRound2 (rawImpactScore g c d) := by
  refine ⟨?_, ?_, ?_, ?_⟩
  · apply pyRound2_mono
    unfold rawImpactScore
    have := mul_le_mul_of_nonneg_right hg (show (0:ℚ) ≤ 0.3 by norm_num)
    linarith
  · apply pyRound2_mono
    unfold rawImpactScore
    have hmin : ((min (c * 20) 50 : ℕ) : ℚ) ≤ ((min (c' * 20) 50 : ℕ) : ℚ) := by
      exact_mod_cast (show min (c * 20) 50 ≤ min (c' * 20) 50 by omega)
    have := mul_le_mul_of_nonneg_right hmin (show (0:ℚ) ≤ 0.4 by norm_num)
    linarith
  · intro h3
    unfold rawImpactScore
    rw [show min (c * 20) 50 = 50 by omega, show min (3 * 20) 50 = 50 by omega]
  · apply pyRound2_mono
    unfold rawImpactScore
    have h1 : (1 - d') * 100 * 0.3 ≤ (1 - d) * 100 * 0.3 := by nlinarith
    linarith

/-- Closed witness for `impact_score_monotone` at `g = 0, g' = 1, c = 0,
c' = 1, d = 0, d' = 1`. -/
theorem impact_score_monotone_witness :
    ((0:ℚ) ≤ 1) ∧ ((0:ℕ) ≤ 1) ∧
    (pyRound2 (rawImpactScore 0 0 0) ≤ pyRound2 (rawImpactScore 1 0 0)
      ∧ pyRound2 (rawImpactScore 0 0 0) ≤ pyRound2 (rawImpactScore 0 1 0)
      ∧ (3 ≤ 0 → pyRound2 (rawImpactScore 0 0 0) = pyRound2 (rawImpactScore 0 3 0))
      ∧ pyRound2 (rawImpactScore 0 0 1) ≤ pyRound2 (rawImpactScore 0 0 0)) :=
  ⟨by norm_num, by norm_num,
    impact_score_monotone 0 1 0 1 0 1 (by norm_num) (by norm_num) (by norm_num)⟩

/-- C6: the key-risks list contains the churn message iff git risk > 50, the
critical-vulnerability message iff some vulnerability is CRITICAL, and the
low-documentation message iff coverage < 0.5; messages appear in probe order
with at most one per rule; when no rule fires the list is exactly the
fallback; and for git risk 60, one CRITICAL vulnerability among two, and
coverage 0.4 all three messages appear. -/
theorem keyRisks_threshold_rules (pr : ParallelResults) :
    (churnRiskMsg ∈ identifyKeyRisks pr ↔ pr.git_analysis.risk_score > 50)
    ∧ (criticalVulnMsg
          (pr.cve_analysis.vulnerabilities.filter
            (fun v => v.severity = "CRITICAL")).length ∈ identifyKeyRisks pr
        ↔ ∃ v ∈ pr.cve_analysis.vulnerabilities, v.severity = "CRITICAL")
    ∧ (lowDocMsg ∈ identifyKeyRisks pr ↔ pr.documentation_analysis.coverage < 0.5)
    ∧ (identifyKeyRisks pr = [noRiskMsg] ↔
        ¬ pr.git_analysis.risk_score > 50
        ∧ (∀ v ∈ pr.cve_analysis.vulnerabilities, v.severity ≠ "CRITICAL")
        ∧ ¬ pr.documentation_analysis.coverage < 0.5)
    ∧ ((pr.git_analysis.risk_score > 50
        ∨ (∃ v ∈ pr.cve_analysis.vulnerabilities, v.severity = "CRITICAL")
        ∨ pr.documentation_analysis.coverage < 0.5) →
        identifyKeyRisks pr =
          (if pr.git_analysis.risk_score > 50 then [churnRiskMsg] else [])
          ++ (if (pr.cve_analysis.vulnerabilities.filter
                (fun v => v.severity = "CRITICAL")).length ≠ 0 then
              [criticalVulnMsg
                (pr.cve_analysis.vulnerabilities.filter
                  (fun v => v.severity = "CRITICAL")).length] else [])
          ++ (if pr.documentation_analysis.coverage < 0.5 then [lowDocMsg] else []))
    ∧ identifyKeyRisks
        ⟨⟨60, [], 0⟩, ⟨[⟨"requests", "CRITICAL"⟩, ⟨"flask", "HIGH"⟩], 2⟩, ⟨0.4, 10⟩⟩
        = [churnRiskMsg, criticalVulnMsg 1, lowDocMsg] := by
  obtain ⟨hne1, hne2, hne3⟩ :=
    criticalVulnMsg_ne
      (pr.cve_analysis.vulnerabilities.filter (fun v => v.severity = "CRITICAL")).length
  have hcd : churnRiskMsg ≠ lowDocMsg := by decide
  have hcn : churnRiskMsg ≠ noRiskMsg := by decide
  have hdn : lowDocMsg ≠ noRiskMsg := by decide
  have hex : (pr.cve_analysis.vulnerabilities.filter
      (fun v => v.severity = "CRITICAL")).length ≠ 0
      ↔ ∃ v ∈ pr.cve_analysis.vulnerabilities, v.severity = "CRITICAL" := by
    rw [Ne, List.length_eq_zero, List.filter_eq_nil_iff]
    push_neg
    simp
  refine ⟨?_, ?_, ?_, ?_, ?_, ?_⟩
  · by_cases hg : pr.git_analysis.risk_score > 50 <;>
      by_cases hc : (pr.cve_analysis.vulnerabilities.filter
        (fun v => v.severity = "CRITICAL")).length ≠ 0 <;>
      by_cases hd : pr.documentation_analysis.coverage < 0.5 <;>
      simp [identifyKeyRisks, hg, hc, hd, hcd, hcn, Ne.symm hne1]
  · rw [← hex]
    by_cases hg : pr.git_analysis.risk_score > 50 <;>
      by_cases hc : (pr.cve_analysis.vulnerabilities.filter
        (fun v => v.severity = "CRITICAL")).length ≠ 0 <;>
      by_cases hd : pr.documentation_analysis.coverage < 0.5 <;>
      simp [identifyKeyRisks, hg, hc, hd, hne1, hne2, hne3]
  · by_cases hg : pr.git_analysis.risk_score > 50 <;>
      by_cases hc : (pr.cve_analysis.vulnerabilities.filter
        (fun v => v.severity = "CRITICAL")).length ≠ 0 <;>
      by_cases hd : pr.documentation_analysis.coverage < 0.5 <;>
      simp [identifyKeyRisks, hg, hc, hd, hdn, Ne.symm hcd, Ne.symm hne2]
  · rw [show (∀ v ∈ pr.cve_analysis.vulnerabilities, v.severity ≠ "CRITICAL") ↔
        ¬ ∃ v ∈ pr.cve_analysis.vulnerabilities, v.severity = "CRITICAL" by push_neg; rfl,
      ← hex]
    by_cases hg : pr.git_analysis.risk_score > 50 <;>
      by_cases hc : (pr.cve_analysis.vulnerabilities.filter
        (fun v => v.severity = "CRITICAL")).length ≠ 0 <;>
      by_cases hd : pr.documentation_analysis.coverage < 0.5 <;>
      simp [identifyKeyRisks, hg, hc, hd, hcn, hdn, hne3, Ne.symm hcn, Ne.symm hdn,
        Ne.symm hne3]
  · rw [← hex]
    by_cases hg : pr.git_analysis.risk_score > 50 <;>
      by_cases hc : (pr.cve_analysis.vulnerabilities.filter
        (fun v => v.severity = "CRITICAL")).length ≠ 0 <;>
      by_cases hd : pr.documentation_analysis.coverage < 0.5 <;>
      simp [identifyKeyRisks, hg, hc, hd]
  · have h1 : ((60 : ℚ) > 50) := by norm_num
    have h2 : ((0.4 : ℚ) < 0.5) := by norm_num
    simp [identifyKeyRisks, h1, h2]

/-- Closed witness for `keyRisks_threshold_rules`: instantiates the
probe-order conjunct at the git-risk-60 / one-CRITICAL / coverage-0.4 input,
discharging its disjunctive hypothesis. -/
theorem keyRisks_threshold_rules_witness :
    identifyKeyRisks
        ⟨⟨60, [], 0⟩, ⟨[⟨"requests", "CRITICAL"⟩, ⟨"flask", "HIGH"⟩], 2⟩, ⟨0.4, 10⟩⟩
      = (if (60:ℚ) > 50 then [churnRiskMsg] else [])
        ++ (if (([⟨"requests", "CRITICAL"⟩, ⟨"flask", "HIGH"⟩] : List Vuln).filter
              (fun v => v.severity = "CRITICAL")).length ≠ 0 then
            [criticalVulnMsg
              (([⟨"requests", "CRITICAL"⟩, ⟨"flask", "HIGH"⟩] : List Vuln).filter
                (fun v => v.severity = "CRITICAL")).length] else [])
        ++ (if (0.4:ℚ) < 0.5 then [lowDocMsg] else []) :=
  (keyRisks_threshold_rules
      ⟨⟨60, [], 0⟩, ⟨[⟨"requests", "CRITICAL"⟩, ⟨"flask", "HIGH"⟩], 2⟩,
        ⟨0.4, 10⟩⟩).2.2.2.2.1 (Or.inl (by norm_num))

/-! ## Judge response parser (src/evaluation/llm_judge.py) -/

/-- Python `str.strip()` whitespace set (ASCII): space, tab, LF, CR, VT, FF. -/
def pySpace (c : Char) : Bool :=
  c == ' ' || c == '\t' || c == '\n' || c == '\r' || c == '\x0B' || c == '\x0C'

/-- Python `str.strip()` on a character list: drop whitespace on both ends. -/
def pyStripList (l : List Char) : List Char :=
  ((l.dropWhile pySpace).reverse.dropWhile pySpace).reverse

/-- Python `str.strip()`. -/
def pyStrip (s : String) : String := ⟨pyStripList s.data⟩

/-- Python `str.startswith`. -/
def pyStartsWith (s p : String) : Bool := p.data.isPrefixOf s.data

/-- Python `str.split(sep)` for a single-character separator, on the character
list (`''.split(c) == ['']`). -/
def splitCharsOn (c : Char) : List Char → List String
  | [] => [""]
  | x :: xs =>
    let rest := splitCharsOn c xs
    if x = c then "" :: rest
    else
      match rest with
      | h :: t => (⟨x :: h.data⟩ : String) :: t
      | [] => [⟨[x]⟩]

/-- Python `str.split(sep)` for a single-character separator. -/
def pySplitOn (c : Char) (s : String) : List String := splitCharsOn c s.data

/-- Numeric value of a decimal digit character. -/
def digitVal (c : Char) : ℕ := c.toNat - 48

/-- Digits of a Python integer literal after the first digit:
`digit (["_"] digit)*` — an underscore must sit between two digits. -/
def pyDigitsRest (acc : ℕ) : List Char → Option ℕ
  | [] => some acc
  | c :: cs =>
    if c.isDigit then pyDigitsRest (10 * acc + digitVal c) cs
    else if c = '_' then
      match cs with
      | c2 :: cs2 =>
        if c2.isDigit then pyDigitsRest (10 * acc + digitVal c2) cs2 else none
      | [] => none
    else none

/-- Digits of a Python integer literal: at least one leading digit. -/
def pyDigitsStart : List Char → Option ℕ
  | [] => none
  | c :: cs => if c.isDigit then pyDigitsRest (digitVal c) cs else none

/-- Python `int(str)` body after stripping: optional sign then digits. -/
def pyIntOfChars : List Char → Option ℤ
  | '+' :: rest => (pyDigitsStart rest).map (fun n => (n : ℤ))
  | '-' :: rest => (pyDigitsStart rest).map (fun n => -(n : ℤ))
  | l => (pyDigitsStart l).map (fun n => (n : ℤ))

/-- Python `int(str)`: `none` models the `ValueError` caught by the parser's
bare `except`. -/
def pyInt (s : String) : Option ℤ := pyIntOfChars (pyStripList s.data)

/-- The three bulleted sections of the judge response template. -/
inductive JudgeSection
  | strengths
  | weaknesses
  | recommendations
deriving DecidableEq

/-- The `dimensions` dictionary: the four fixed keys, `none` while a key is
absent. -/
structure Dimensions where
  completeness : Option ℤ
  accuracy : Option ℤ
  actionability : Option ℤ
  clarity : Option ℤ
deriving DecidableEq

/-- The `evaluation` record built by `_parse_evaluation_response`. -/
structure JudgeEvaluation where
  overall_score : ℤ
  dimensions : Dimensions
  strengths : List String
  weaknesses : List String
  recommendations : List String
deriving DecidableEq

/-- Loop state of `_parse_evaluation_response`: the record under construction
plus `current_section`. -/
structure ParseState where
  eval : JudgeEvaluation
  currentSection : Option JudgeSection
deriving DecidableEq

/-- The initial `evaluation` dictionary. -/
def initJudgeEvaluation : JudgeEvaluation := ⟨0, ⟨none, none, none, none⟩, [], [], []⟩

/-- Initial loop state (`current_section = None`). -/
def initParseState : ParseState := ⟨initJudgeEvaluation, none⟩

/-- `int(line.split(":")[1].strip())` as an `Option`: the index-1 segment
exists whenever the guarding `startswith` succeeded (the label contains a
colon); an out-of-range index would be caught by the same bare `except` as a
parse failure, so both map to `none`. -/
def colonField (line : String) : Option ℤ :=
  match (pySplitOn ':' line).get? 1 with
  | some fld => pyInt fld
  | none => none

/-- One iteration of the `for line in lines` loop of
`_parse_evaluation_response`. -/
def parseLine (st : ParseState) (rawLine : String) : ParseState :=
  let line := pyStrip rawLine
  if pyStartsWith line "OVERALL_SCORE:" then
    { st with eval := { st.eval with overall_score := (colonField line).getD 0 } }
  else if pyStartsWith line "COMPLETENESS:" then
    match colonField line with
    | some v =>
      { st with eval :=
          { st.eval with dimensions := { st.eval.dimensions with completeness := some v } } }
    | none => st
  else if pyStartsWith line "ACCURACY:" then
    match colonField line with
    | some v =>
      { st with eval :=
          { st.eval with dimensions := { st.eval.dimensions with accuracy := some v } } }
    | none => st
  else if pyStartsWith line "ACTIONABILITY:" then
    match colonField line with
    | some v =>
      { st with eval :=
          { st.eval with dimensions := { st.eval.dimensions with actionability := some v } } }
    | none => st
  else if pyStartsWith line "CLARITY:" then
    match colonField line with
    | some v =>
      { st with eval :=
          { st.eval with dimensions := { st.eval.dimensions with clarity := some v } } }
    | none => st
  else if line = "STRENGTHS:" then
    { st with currentSection := some JudgeSection.strengths }
  else if line = "WEAKNESSES:" then
    { st with currentSection := some JudgeSection.weaknesses }
  else if line = "RECOMMENDATIONS:" then
    { st with currentSection := some JudgeSection.recommendations }
  else if pyStartsWith line "- " then
    match st.currentSection with
    | some JudgeSection.strengths =>
      { st with eval :=
          { st.eval with strengths := st.eval.strengths ++ [pyStrip (line.drop 2)] } }
    | some JudgeSection.weaknesses =>
      { st with eval :=
          { st.eval with weaknesses := st.eval.weaknesses ++ [pyStrip (line.drop 2)] } }
    | some JudgeSection.recommendations =>
      { st with eval :=
          { st.eval with recommendations := st.eval.recommendations ++ [pyStrip (line.drop 2)] } }
    | none => st
  else st

/-- The parsed dimension scores present in the dictionary. -/
def dimsList (d : Dimensions) : List ℤ :=
  [d.completeness, d.accuracy, d.actionability, d.clarity].reduceOption

/-- The backfill step at the end of `_parse_evaluation_response`: if the
overall score is (still) 0 and dimension scores exist, replace it by
`int(sum(dimension_scores) / len(dimension_scores))` — truncated division. -/
def backfillOverall (e : JudgeEvaluation) : JudgeEvaluation :=
  if e.overall_score = 0 ∧ dimsList e.dimensions ≠ [] then
    { e with overall_score :=
        ((dimsList e.dimensions).sum).tdiv ((dimsList e.dimensions).length : ℤ) }
  else e

/-- The line loop of `_parse_evaluation_response` over
`response_text.strip().split('\n')`. -/
def parseCore (text : String) : ParseState :=
  (pySplitOn '\n' (pyStrip text)).foldl parseLine initParseState

/-- `_parse_evaluation_response`. -/
def parseEvaluationResponse (text : String) : JudgeEvaluation :=
  backfillOverall (parseCore text).eval

/-! ### Parser lemmas -/

lemma pyStartsWith_excl {s : String} (p q : String) (h1 : pyStartsWith s p = true)
    (hpq : ¬ p.data <+: q.data) (hqp : ¬ q.data <+: p.data) :
    pyStartsWith s q = false := by
  by_contra h2
  rw [Bool.not_eq_false] at h2
  unfold pyStartsWith at h1 h2
  rw [List.isPrefixOf_iff_prefix] at h1 h2
  rcases List.prefix_or_prefix_of_prefix h1 h2 with h | h
  · exact hpq h
  · exact hqp h

lemma ne_of_pyStartsWith {s : String} (p lit : String) (h : pyStartsWith s p = true)
    (hnp : ¬ p.data <+: lit.data) : s ≠ lit := by
  intro he
  apply hnp
  rw [← he]
  unfold pyStartsWith at h
  exact List.isPrefixOf_iff_prefix.mp h

/-- C4: whenever the parsed overall score is absent or zero after the line
loop but at least one dimension score parsed, `_parse_evaluation_response`
backfills the overall score with the truncated unweighted mean of the parsed
dimension scores. -/
theorem overall_score_backfill (text : String)
    (h0 : (parseCore text).eval.overall_score = 0)
    (hd : dimsList (parseCore text).eval.dimensions ≠ []) :
    (parseEvaluationResponse text).overall_score =
      ((dimsList (parseCore text).eval.dimensions).sum).tdiv
        ((dimsList (parseCore text).eval.dimensions).length : ℤ) := by
  unfold parseEvaluationResponse backfillOverall
  rw [if_pos ⟨h0, hd⟩]

/-- Closed witness for `overall_score_backfill`: the four dimension lines
with no OVERALL_SCORE line parse to overall score (90+80+75+95)/4 = 85. -/
theorem overall_score_backfill_witness :
    (parseCore "COMPLETENESS: 90\nACCURACY: 80\nACTIONABILITY: 75\nCLARITY: 95").eval.overall_score = 0
    ∧ dimsList (parseCore "COMPLETENESS: 90\nACCURACY: 80\nACTIONABILITY: 75\nCLARITY: 95").eval.dimensions ≠ []
    ∧ (parseEvaluationResponse "COMPLETENESS: 90\nACCURACY: 80\nACTIONABILITY: 75\nCLARITY: 95").overall_score = 85 :=
  ⟨by decide, by decide, by
    rw [overall_score_backfill _ (by decide) (by decide)]
    decide⟩

/-- C5: the line loop of `_parse_evaluation_response` is total and tolerant —
a labeled field whose value fails to parse is omitted (a failed
OVERALL_SCORE yields 0), a "- " line is appended to the list of the most
recently seen section header and ignored when no header has been seen, and
every other unrecognized line leaves the state unchanged. -/
theorem parse_line_tolerance (st : ParseState) (rawLine : String) :
    (pyStartsWith (pyStrip rawLine) "OVERALL_SCORE:" = true →
      colonField (pyStrip rawLine) = none →
      (parseLine st rawLine).eval.overall_score = 0)
    ∧ (pyStartsWith (pyStrip rawLine) "COMPLETENESS:" = true →
        colonField (pyStrip rawLine) = none → parseLine st rawLine = st)
    ∧ (pyStartsWith (pyStrip rawLine) "ACCURACY:" = true →
        colonField (pyStrip rawLine) = none → parseLine st rawLine = st)
    ∧ (pyStartsWith (pyStrip rawLine) "ACTIONABILITY:" = true →
        colonField (pyStrip rawLine) = none → parseLine st rawLine = st)
    ∧ (pyStartsWith (pyStrip rawLine) "CLARITY:" = true →
        colonField (pyStrip rawLine) = none → parseLine st rawLine = st)
    ∧ (pyStartsWith (pyStrip rawLine) "- " = true →
        st.currentSection = some JudgeSection.strengths →
        parseLine st rawLine =
          { st with eval := { st.eval with strengths :=
              st.eval.strengths ++ [pyStrip ((pyStrip rawLine).drop 2)] } })
    ∧ (pyStartsWith (pyStrip rawLine) "- " = true →
        st.currentSection = some JudgeSection.weaknesses →
        parseLine st rawLine =
          { st with eval := { st.eval with weaknesses :=
              st.eval.weaknesses ++ [pyStrip ((pyStrip rawLine).drop 2)] } })
    ∧ (pyStartsWith (pyStrip rawLine) "- " = true →
        st.currentSection = some JudgeSection.recommendations →
        parseLine st rawLine =
          { st with eval := { st.eval with recommendations :=
              st.eval.recommendations ++ [pyStrip ((pyStrip rawLine).drop 2)] } })
    ∧ (pyStartsWith (pyStrip rawLine) "- " = true →
        st.currentSection = none → parseLine st rawLine = st)
    ∧ (pyStartsWith (pyStrip rawLine) "OVERALL_SCORE:" = false →
        pyStartsWith (pyStrip rawLine) "COMPLETENESS:" = false →
        pyStartsWith (pyStrip rawLine) "ACCURACY:" = false →
        pyStartsWith (pyStrip rawLine) "ACTIONABILITY:" = false →
        pyStartsWith (pyStrip rawLine) "CLARITY:" = false →
        pyStrip rawLine ≠ "STRENGTHS:" →
        pyStrip rawLine ≠ "WEAKNESSES:" →
        pyStrip rawLine ≠ "RECOMMENDATIONS:" →
        pyStartsWith (pyStrip rawLine) "- " = false →
        parseLine st rawLine = st) := by
  refine ⟨?_, ?_, ?_, ?_, ?_, ?_, ?_, ?_, ?_, ?_⟩
  · intro h1 h2
    simp [parseLine, h1, h2]
  · intro h1 h2
    have e1 := pyStartsWith_excl _ "OVERALL_SCORE:" h1 (by decide) (by decide)
    simp [parseLine, h1, h2, e1]
  · intro h1 h2
    have e1 := pyStartsWith_excl _ "OVERALL_SCORE:" h1 (by decide) (by decide)
    have e2 := pyStartsWith_excl _ "COMPLETENESS:" h1 (by decide) (by decide)
    simp [parseLine, h1, h2, e1, e2]
  · intro h1 h2
    have e1 := pyStartsWith_excl _ "OVERALL_SCORE:" h1 (by decide) (by decide)
    have e2 := pyStartsWith_excl _ "COMPLETENESS:" h1 (by decide) (by decide)
    have e3 := pyStartsWith_excl _ "ACCURACY:" h1 (by decide) (by decide)
    simp [parseLine, h1, h2, e1, e2, e3]
  · intro h1 h2
    have e1 := pyStartsWith_excl _ "OVERALL_SCORE:" h1 (by decide) (by decide)
    have e2 := pyStartsWith_excl _ "COMPLETENESS:" h1 (by decide) (by decide)
    have e3 := pyStartsWith_excl _ "ACCURACY:" h1 (by decide) (by decide)
    have e4 := pyStartsWith_excl _ "ACTIONABILITY:" h1 (by decide) (by decide)
    simp [parseLine, h1, h2, e1, e2, e3, e4]
  · intro h1 hsec
    have e1 := pyStartsWith_excl _ "OVERALL_SCORE:" h1 (by decide) (by decide)
    have e2 := pyStartsWith_excl _ "COMPLETENESS:" h1 (by decide) (by decide)
    have e3 := pyStartsWith_excl _ "ACCURACY:" h1 (by decide) (by decide)
    have e4 := pyStartsWith_excl _ "ACTIONABILITY:" h1 (by decide) (by decide)
    have e5 := pyStartsWith_excl _ "CLARITY:" h1 (by decide) (by decide)
    have n1 := ne_of_pyStartsWith _ "STRENGTHS:" h1 (by decide)
    have n2 := ne_of_pyStartsWith _ "WEAKNESSES:" h1 (by decide)
    have n3 := ne_of_pyStartsWith _ "RECOMMENDATIONS:" h1 (by decide)
    simp [parseLine, h1, e1, e2, e3, e4, e5, n1, n2, n3, hsec]
  · intro h1 hsec
    have e1 := pyStartsWith_excl _ "OVERALL_SCORE:" h1 (by decide) (by decide)
    have e2 := pyStartsWith_excl _ "COMPLETENESS:" h1 (by decide) (by decide)
    have e3 := pyStartsWith_excl _ "ACCURACY:" h1 (by decide) (by decide)
    have e4 := pyStartsWith_excl _ "ACTIONABILITY:" h1 (by decide) (by decide)
    have e5 := pyStartsWith_excl _ "CLARITY:" h1 (by decide) (by decide)
    have n1 := ne_of_pyStartsWith _ "STRENGTHS:" h1 (by decide)
    have n2 := ne_of_pyStartsWith _ "WEAKNESSES:" h1 (by decide)
    have n3 := ne_of_pyStartsWith _ "RECOMMENDATIONS:" h1 (by decide)
    simp [parseLine, h1, e1, e2, e3, e4, e5, n1, n2, n3, hsec]
  · intro h1 hsec
    have e1 := pyStartsWith_excl _ "OVERALL_SCORE:" h1 (by decide) (by decide)
    have e2 := pyStartsWith_excl _ "COMPLETENESS:" h1 (by decide) (by decide)
    have e3 := pyStartsWith_excl _ "ACCURACY:" h1 (by decide) (by decide)
    have e4 := pyStartsWith_excl _ "ACTIONABILITY:" h1 (by decide) (by decide)
    have e5 := pyStartsWith_excl _ "CLARITY:" h1 (by decide) (by decide)
    have n1 := ne_of_pyStartsWith _ "STRENGTHS:" h1 (by decide)
    have n2 := ne_of_pyStartsWith _ "WEAKNESSES:" h1 (by decide)
    have n3 := ne_of_pyStartsWith _ "RECOMMENDATIONS:" h1 (by decide)
    simp [parseLine, h1, e1, e2, e3, e4, e5, n1, n2, n3, hsec]
  · intro h1 hsec
    have e1 := pyStartsWith_excl _ "OVERALL_SCORE:" h1 (by decide) (by decide)
    have e2 := pyStartsWith_excl _ "COMPLETENESS:" h1 (by decide) (by decide)
    have e3 := pyStartsWith_excl _ "ACCURACY:" h1 (by decide) (by decide)
    have e4 := pyStartsWith_excl _ "ACTIONABILITY:" h1 (by decide) (by decide)
    have e5 := pyStartsWith_excl _ "CLARITY:" h1 (by decide) (by decide)
    have n1 := ne_of_pyStartsWith _ "STRENGTHS:" h1 (by decide)
    have n2 := ne_of_pyStartsWith _ "WEAKNESSES:" h1 (by decide)
    have n3 := ne_of_pyStartsWith _ "RECOMMENDATIONS:" h1 (by decide)
    simp [parseLine, h1, e1, e2, e3, e4, e5, n1, n2, n3, hsec]
  · intro h1 h2 h3 h4 h5 n1 n2 n3 hb
    simp [parseLine, h1, h2, h3, h4, h5, n1, n2, n3, hb]

/-- Closed witness for `parse_line_tolerance`: malformed field lines, bullet
lines with and without a current section, and an unrecognized line. -/
theorem parse_line_tolerance_witness :
    (parseLine initParseState "OVERALL_SCORE: high").eval.overall_score = 0
    ∧ parseLine initParseState "COMPLETENESS: n/a" = initParseState
    ∧ parseLine initParseState "ACCURACY: ??" = initParseState
    ∧ parseLine initParseState "ACTIONABILITY: ??" = initParseState
    ∧ parseLine initParseState "CLARITY: ??" = initParseState
    ∧ parseLine ⟨initJudgeEvaluation, some JudgeSection.strengths⟩ "- good probe use"
        = ⟨⟨0, ⟨none, none, none, none⟩, ["good probe use"], [], []⟩,
            some JudgeSection.strengths⟩
    ∧ parseLine ⟨initJudgeEvaluation, some JudgeSection.weaknesses⟩ "- shallow"
        = ⟨⟨0, ⟨none, none, none, none⟩, [], ["shallow"], []⟩,
            some JudgeSection.weaknesses⟩
    ∧ parseLine ⟨initJudgeEvaluation, some JudgeSection.recommendations⟩ "- add tests"
        = ⟨⟨0, ⟨none, none, none, none⟩, [], [], ["add tests"]⟩,
            some JudgeSection.recommendations⟩
    ∧ parseLine initParseState "- orphan bullet" = initParseState
    ∧ parseLine initParseState "some freeform narrative" = initParseState := by
  refine ⟨?_, ?_, ?_, ?_, ?_, ?_, ?_, ?_, ?_, ?_⟩
  · exact (parse_line_tolerance initParseState "OVERALL_SCORE: high").1
      (by decide) (by decide)
  · exact (parse_line_tolerance initParseState "COMPLETENESS: n/a").2.1
      (by decide) (by decide)
  · exact (parse_line_tolerance initParseState "ACCURACY: ??").2.2.1
      (by decide) (by decide)
  · exact (parse_line_tolerance initParseState "ACTIONABILITY: ??").2.2.2.1
      (by decide) (by decide)
  · exact (parse_line_tolerance initParseState "CLARITY: ??").2.2.2.2.1
      (by decide) (by decide)
  · rw [(parse_line_tolerance ⟨initJudgeEvaluation, some JudgeSection.strengths⟩
      "- good probe use").2.2.2.2.2.1 (by decide) rfl]
    decide
  · rw [(parse_line_tolerance ⟨initJudgeEvaluation, some JudgeSection.weaknesses⟩
      "- shallow").2.2.2.2.2.2.1 (by decide) rfl]
    decide
  · rw [(parse_line_tolerance ⟨initJudgeEvaluation, some JudgeSection.recommendations⟩
      "- add tests").2.2.2.2.2.2.2.1 (by decide) rfl]
    decide
  · exact (parse_line_tolerance initParseState "- orphan bullet").2.2.2.2.2.2.2.2.1
      (by decide) rfl
  · exact (parse_line_tolerance initParseState "some freeform narrative").2.2.2.2.2.2.2.2.2
      (by decide) (by decide) (by decide) (by decide) (by decide) (by decide)
      (by decide) (by decide) (by decide)

/-! ## Memory bank (src/memory/memory_bank.py) -/

/-- The `results.impact_analysis` portion of a stored analysis-results
dictionary: the fields `store_analysis` and `_update_patterns` read. -/
structure ImpactSummary where
  impact_score : ℚ
  severity : String
  key_risks : List String
deriving DecidableEq

/-- One `store_analysis` call: its arguments plus the clock reading used for
`memory_id`/`timestamp` (timestamps modelled as naturals in ISO order). -/
structure MemInput where
  memory_id : String
  repo_path : String
  timestamp : ℕ
  impact : ImpactSummary
  tags : List String
deriving DecidableEq

/-- A `memory_entry` dictionary: stored payload plus the derived `metadata`
fields. -/
structure MemEntry where
  memory_id : String
  repo_path : String
  timestamp : ℕ
  impact : ImpactSummary
  tags : List String
  meta_impact_score : ℚ
  meta_severity : String
deriving DecidableEq

/-- Entry construction inside `store_analysis` (metadata extracted from the
analysis results). -/
def toMemEntry (i : MemInput) : MemEntry :=
  ⟨i.memory_id, i.repo_path, i.timestamp, i.impact, i.tags,
    i.impact.impact_score, i.impact.severity⟩

/-- The derived `patterns` dictionary (dictionaries of counts modelled as
total functions defaulting to 0, matching `dict.get(key, 0)`). -/
structure Patterns where
  severity_distribution : String → ℕ
  average_impact_score : ℚ
  total_analyses : ℕ
  common_risks : String → ℕ

/-- Memory bank state: the append-only entry list plus derived patterns. -/
structure MemoryBank where
  memories : List MemEntry
  patterns : Patterns

/-- Patterns of a fresh bank (keys absent — all counts 0, average 0). -/
def emptyPatterns : Patterns := ⟨fun _ => 0, 0, 0, fun _ => 0⟩

/-- A fresh `MemoryBank()`. -/
def emptyBank : MemoryBank := ⟨[], emptyPatterns⟩

/-- `counts[k] = counts.get(k, 0) + 1`. -/
def bumpCount (f : String → ℕ) (k : String) : String → ℕ :=
  fun s => if s = k then f s + 1 else f s

/-- `_update_patterns`: severity histogram bump, incremental running mean
`(avg * total + new_score) / (total + 1)`, and one histogram bump per
`key_risks` phrase. -/
def updatePatterns (p : Patterns) (e : MemEntry) : Patterns :=
  { severity_distribution := bumpCount p.severity_distribution e.meta_severity
    average_impact_score :=
      (p.average_impact_score * p.total_analyses + e.meta_impact_score) / (p.total_analyses + 1)
    total_analyses := p.total_analyses + 1
    common_risks := e.impact.key_risks.foldl bumpCount p.common_risks }

/-- `store_analysis`: append the entry and update the patterns (disk
persistence is outside this model). -/
def storeAnalysis (b : MemoryBank) (i : MemInput) : MemoryBank :=
  let e := toMemEntry i
  { memories := b.memories ++ [e], patterns := updatePatterns b.patterns e }

/-- `retrieve_by_repo`: a list comprehension over `self.memories` — no
sorting. -/
def retrieveByRepo (b : MemoryBank) (repoPath : String) : List MemEntry :=
  b.memories.filter (fun m => m.repo_path = repoPath)

/-- `retrieve_by_severity`: a list comprehension over `self.memories` — no
sorting. -/
def retrieveBySeverity (b : MemoryBank) (severity : String) : List MemEntry :=
  b.memories.filter (fun m => m.meta_severity = severity)

/-- Insertion step of the stable descending-by-timestamp sort modelling
Python `sorted(key=timestamp, reverse=True)`: the new element passes over
exactly the earlier elements with strictly smaller timestamp. -/
def insertByTimestampDesc (e : MemEntry) : List MemEntry → List MemEntry
  | [] => [e]
  | x :: xs =>
    if x.timestamp < e.timestamp then e :: x :: xs
    else x :: insertByTimestampDesc e xs

/-- Stable sort by timestamp, most recent first
(`sorted(..., key=lambda m: m["timestamp"], reverse=True)`). -/
def sortByTimestampDesc (l : List MemEntry) : List MemEntry :=
  l.foldl (fun acc e => insertByTimestampDesc e acc) []

/-- `retrieve_recent`: sort descending by timestamp, take `limit`. -/
def retrieveRecent (b : MemoryBank) (limit : ℕ) : List MemEntry :=
  (sortByTimestampDesc b.memories).take limit

/-- `search_memories`: optional min-score / severity / tag filters (Python
truthiness: a `None` or empty severity and an empty tag list skip their
filters), then sort descending by timestamp and take `limit`. -/
def searchMemories (b : MemoryBank) (minImpactScore : Option ℚ)
    (severity : Option String) (tags : List String) (limit : ℕ) : List MemEntry :=
  let r1 := match minImpactScore with
    | some m => b.memories.filter (fun e => m ≤ e.meta_impact_score)
    | none => b.memories
  let r2 := match severity with
    | some s => r1.filter (fun e => e.meta_severity = s)
    | none => r1
  let r3 := if tags ≠ [] then r2.filter (fun e => tags.any (fun t => t ∈ e.tags)) else r2
  (sortByTimestampDesc r3).take limit

/-- "Most-recent-first": timestamps are non-increasing along the list. -/
abbrev timestampsDesc (l : List MemEntry) : Prop :=
  List.Pairwise (fun a b => b.timestamp ≤ a.timestamp) l

/-! ### Sorting lemmas -/

lemma mem_insertByTimestampDesc {e y : MemEntry} {l : List MemEntry} :
    y ∈ insertByTimestampDesc e l ↔ y = e ∨ y ∈ l := by
  induction l with
  | nil => simp [insertByTimestampDesc]
  | cons x xs ih =>
    unfold insertByTimestampDesc
    split_ifs with hx
    · simp
    · simp [ih]
      tauto

lemma timestampsDesc_insert {e : MemEntry} {l : List MemEntry}
    (h : timestampsDesc l) : timestampsDesc (insertByTimestampDesc e l) := by
  induction l with
  | nil => simp [insertByTimestampDesc]
  | cons x xs ih =>
    obtain ⟨h1, h2⟩ := List.pairwise_cons.mp h
    unfold insertByTimestampDesc
    split_ifs with hx
    · refine List.Pairwise.cons ?_ (List.Pairwise.cons h1 h2)
      intro y hy
      rcases List.mem_cons.mp hy with rfl | hy'
      · exact le_of_lt hx
      · exact le_trans (h1 y hy') (le_of_lt hx)
    · refine List.Pairwise.cons ?_ (ih h2)
      intro y hy
      rcases mem_insertByTimestampDesc.mp hy with rfl | hy'
      · exact le_of_not_lt hx
      · exact h1 y hy'

lemma timestampsDesc_sort (l : List MemEntry) : timestampsDesc (sortByTimestampDesc l) := by
  have aux : ∀ (l : List MemEntry) (acc : List MemEntry), timestampsDesc acc →
      timestampsDesc (l.foldl (fun acc e => insertByTimestampDesc e acc) acc) := by
    intro l
    induction l with
    | nil => intro acc h; exact h
    | cons x xs ih =>
      intro acc h
      exact ih _ (timestampsDesc_insert h)
  exact aux l [] (by simp)

/-- C7 counterexample: two `store_analysis` calls for the same repository
with increasing timestamps make `retrieve_by_repo` and
`retrieve_by_severity` return entries oldest-first, not most-recent-first. -/
theorem lookup_order_counterexample :
    ¬ timestampsDesc
        (retrieveByRepo
          (storeAnalysis
            (storeAnalysis emptyBank ⟨"mem_1", "/repo", 1, ⟨10, "low", []⟩, []⟩)
            ⟨"mem_2", "/repo", 2, ⟨20, "low", []⟩, []⟩)
          "/repo")
    ∧ ¬ timestampsDesc
        (retrieveBySeverity
          (storeAnalysis
            (storeAnalysis emptyBank ⟨"mem_1", "/repo", 1, ⟨10, "low", []⟩, []⟩)
            ⟨"mem_2", "/repo", 2, ⟨20, "low", []⟩, []⟩)
          "low") := by
  constructor <;> decide

/-- C7 amended: `retrieve_recent` and `search_memories` return entries in
most-recent-first order; `retrieve_by_repo` and `retrieve_by_severity`
return their matches in insertion order (unsorted filters of the entry
list). -/
theorem lookup_order_amended (b : MemoryBank) (repoPath sev : String)
    (minImpactScore : Option ℚ) (severity : Option String) (tags : List String)
    (limit : ℕ) :
    retrieveByRepo b repoPath = b.memories.filter (fun m => m.repo_path = repoPath)
    ∧ retrieveBySeverity b sev = b.memories.filter (fun m => m.meta_severity = sev)
    ∧ timestampsDesc (retrieveRecent b limit)
    ∧ timestampsDesc (searchMemories b minImpactScore severity tags limit) := by
  refine ⟨rfl, rfl, ?_, ?_⟩
  · exact List.Pairwise.sublist (List.take_sublist _ _) (timestampsDesc_sort _)
  · exact List.Pairwise.sublist (List.take_sublist _ _) (timestampsDesc_sort _)

/-! ### Pattern-consistency lemmas -/

lemma foldl_bumpCount (ks : List String) (f : String → ℕ) (r : String) :
    (ks.foldl bumpCount f) r = f r + ks.count r := by
  induction ks generalizing f with
  | nil => simp
  | cons k ks ih =>
    rw [List.foldl_cons, ih, List.count_cons]
    simp only [bumpCount]
    by_cases hrk : r = k
    · simp only [if_pos hrk, hrk, beq_self_eq_true, if_true]
      omega
    · simp [hrk, Ne.symm hrk]

/-- The aggregate-consistency invariant of the memory bank: every derived
pattern equals a full recomputation over the stored entry list. -/
def PatternsConsistent (b : MemoryBank) : Prop :=
  (∀ s, b.patterns.severity_distribution s =
      (b.memories.filter (fun e => e.meta_severity = s)).length)
  ∧ b.patterns.total_analyses = b.memories.length
  ∧ b.patterns.average_impact_score * (b.patterns.total_analyses : ℚ) =
      (b.memories.map (fun e => e.meta_impact_score)).sum
  ∧ (∀ r, b.patterns.common_risks r =
      ((b.memories.map (fun e => e.impact.key_risks)).join).count r)

lemma patternsConsistent_empty : PatternsConsistent emptyBank := by
  refine ⟨fun s => rfl, rfl, by simp [emptyBank, emptyPatterns], fun r => by simp [emptyBank, emptyPatterns]⟩

lemma patternsConsistent_store {b : MemoryBank} (h : PatternsConsistent b)
    (i : MemInput) : PatternsConsistent (storeAnalysis b i) := by
  obtain ⟨h1, h2, h3, h4⟩ := h
  refine ⟨?_, ?_, ?_, ?_⟩
  · intro s
    show bumpCount b.patterns.severity_distribution (toMemEntry i).meta_severity s = _
    simp only [storeAnalysis, List.filter_append, List.length_append, bumpCount]
    by_cases hs : s = (toMemEntry i).meta_severity
    · rw [if_pos hs, h1 s, hs]
      simp
    · rw [if_neg hs, h1 s]
      simp [Ne.symm hs]
  · show b.patterns.total_analyses + 1 = _
    simp [storeAnalysis, h2]
  · show (b.patterns.average_impact_score * (b.patterns.total_analyses : ℚ)
        + (toMemEntry i).meta_impact_score) / ((b.patterns.total_analyses : ℚ) + 1)
        * (((b.patterns.total_analyses + 1 : ℕ)) : ℚ) = _
    have hne : ((b.patterns.total_analyses : ℚ) + 1) ≠ 0 := by positivity
    push_cast
    rw [div_mul_cancel₀ _ hne, h3]
    simp [storeAnalysis]
  · intro r
    show ((toMemEntry i).impact.key_risks.foldl bumpCount b.patterns.common_risks) r = _
    rw [foldl_bumpCount, h4 r]
    simp [storeAnalysis]

lemma patternsConsistent_foldl (inputs : List MemInput) :
    ∀ b : MemoryBank, PatternsConsistent b →
      PatternsConsistent (inputs.foldl storeAnalysis b) := by
  induction inputs with
  | nil => intro b h; exact h
  | cons i is ih => intro b h; exact ih _ (patternsConsistent_store h i)

/-- C2: after any sequence of `store_analysis` calls from an empty bank, the
derived patterns equal a full recomputation over the stored entries: the
severity histogram, the running mean (maintained by the O(1) update
`(avg*n + x)/(n+1)`), and the risk-phrase counts. -/
theorem memory_patterns_aggregate_consistency (inputs : List MemInput)
    (b : MemoryBank) (hb : b = inputs.foldl storeAnalysis emptyBank) :
    (∀ s, b.patterns.severity_distribution s =
        (b.memories.filter (fun e => e.meta_severity = s)).length)
    ∧ b.patterns.total_analyses = b.memories.length
    ∧ (b.memories ≠ [] → b.patterns.average_impact_score =
        (b.memories.map (fun e => e.meta_impact_score)).sum / (b.memories.length : ℚ))
    ∧ (∀ r, b.patterns.common_risks r =
        ((b.memories.map (fun e => e.impact.key_risks)).join).count r)
    ∧ (∀ p e, (updatePatterns p e).average_impact_score =
        (p.average_impact_score * (p.total_analyses : ℚ) + e.meta_impact_score)
          / ((p.total_analyses : ℚ) + 1)) := by
  subst hb
  obtain ⟨m1, m2, m3, m4⟩ := patternsConsistent_foldl inputs emptyBank patternsConsistent_empty
  refine ⟨m1, m2, ?_, m4, fun p e => rfl⟩
  intro hne
  have hlen : ((inputs.foldl storeAnalysis emptyBank).memories.length : ℚ) ≠ 0 := by
    exact_mod_cast fun h0 => hne (List.length_eq_zero.mp (by exact_mod_cast h0))
  rw [eq_div_iff hlen, ← m2]
  exact m3

/-- Closed witness for `memory_patterns_aggregate_consistency`: storing
impact scores 10, 20, 30 leaves the running average exactly 20. -/
theorem memory_patterns_aggregate_consistency_witness :
    ([(⟨"mem_1", "/r", 1, ⟨10, "low", []⟩, []⟩ : MemInput),
        ⟨"mem_2", "/r", 2, ⟨20, "medium", []⟩, []⟩,
        ⟨"mem_3", "/r", 3, ⟨30, "high", []⟩, []⟩].foldl storeAnalysis emptyBank).memories ≠ []
    ∧ ([(⟨"mem_1", "/r", 1, ⟨10, "low", []⟩, []⟩ : MemInput),
        ⟨"mem_2", "/r", 2, ⟨20, "medium", []⟩, []⟩,
        ⟨"mem_3", "/r", 3, ⟨30, "high", []⟩, []⟩].foldl storeAnalysis
          emptyBank).patterns.average_impact_score = 20 := by
  refine ⟨by decide, ?_⟩
  rw [(memory_patterns_aggregate_consistency _ _ rfl).2.2.1 (by decide)]
  simp [storeAnalysis, emptyBank, toMemEntry]
  norm_num

/-! ## Session service (src/sessions/session_service.py) -/

/-- A `Session` dataclass (conversation messages abstracted to their content
strings; timestamps as naturals in chronological order). -/
structure Session where
  session_id : String
  created_at : ℕ
  updated_at : ℕ
  state : List (String × String)
  conversation_history : List String
  analysis_results : Option String
deriving DecidableEq

/-- `InMemorySessionService`: the `sessions` dict in insertion order (keys —
the generated uuid-based ids — are unique), plus `max_sessions`. -/
structure SessionService where
  sessions : List Session
  max_sessions : ℕ
deriving DecidableEq

/-- The fresh session built by `create_session`. -/
def newSession (sid : String) (now : ℕ) : Session := ⟨sid, now, now, [], [], none⟩

/-- Python dict assignment `self.sessions[session_id] = session`: replace in
place if the key exists, else append. -/
def dictInsert (l : List Session) (s : Session) : List Session :=
  if l.any (fun x => x.session_id = s.session_id) then
    l.map (fun x => if x.session_id = s.session_id then s else x)
  else l ++ [s]

/-- `min(self.sessions.keys(), key=lambda sid: updated_at)` — the minimal
`updated_at` in the store (0 only for the unreachable empty case). -/
def minUpdatedAt : List Session → ℕ
  | [] => 0
  | s :: rest =>
    match rest with
    | [] => s.updated_at
    | _ :: _ => min s.updated_at (minUpdatedAt rest)

/-- `del self.sessions[oldest_session_id]`: Python `min` returns the first
key attaining the minimum, so remove the first session whose `updated_at`
equals it. -/
def removeFirstUpdatedAt (m : ℕ) : List Session → List Session
  | [] => []
  | s :: rest => if s.updated_at = m then rest else s :: removeFirstUpdatedAt m rest

/-- `_evict_oldest_session`: no-op on an empty store, else remove the
least-recently-updated session (first one under ties). -/
def evictOldestSession (l : List Session) : List Session :=
  match l with
  | [] => []
  | _ :: _ => removeFirstUpdatedAt (minUpdatedAt l) l

/-- `create_session`: insert the fresh session, then evict the oldest if the
store now exceeds `max_sessions`. -/
def createSession (svc : SessionService) (sid : String) (now : ℕ) : SessionService :=
  let inserted := dictInsert svc.sessions (newSession sid now)
  if inserted.length > svc.max_sessions then
    { svc with sessions := evictOldestSession inserted }
  else
    { svc with sessions := inserted }

/-- `get_session`: dictionary lookup by id. -/
def getSession (svc : SessionService) (sid : String) : Option Session :=
  svc.sessions.find? (fun s => s.session_id = sid)

/-- `Session.update_state` for one key: set the key and refresh
`updated_at`. -/
def setStateKey (s : Session) (kv : String × String) (now : ℕ) : Session :=
  { s with
    state :=
      if s.state.any (fun p => p.1 = kv.1) then
        s.state.map (fun p => if p.1 = kv.1 then kv else p)
      else s.state ++ [kv]
    updated_at := now }

/-- `update_session`: apply the state updates and/or store the analysis
results on the named session; `None` (no session) leaves the store
unchanged. -/
def updateSession (svc : SessionService) (sid : String)
    (stateUpdates : List (String × String)) (analysisResults : Option String)
    (now : ℕ) : SessionService :=
  match svc.sessions.find? (fun s => s.session_id = sid) with
  | none => svc
  | some _ =>
    { svc with
      sessions := svc.sessions.map (fun s =>
        if s.session_id = sid then
          let s1 := stateUpdates.foldl (fun acc kv => setStateKey acc kv now) s
          match analysisResults with
          | some r => { s1 with analysis_results := some r, updated_at := now }
          | none => s1
        else s) }

/-- `delete_session`: remove the id if present, reporting whether it was. -/
def deleteSession (svc : SessionService) (sid : String) : SessionService × Bool :=
  if svc.sessions.any (fun s => s.session_id = sid) then
    ({ svc with sessions := svc.sessions.filter (fun s => ¬ s.session_id = sid) }, true)
  else (svc, false)

/-- `clear_all_sessions`. -/
def clearAllSessions (svc : SessionService) : SessionService :=
  { svc with sessions := [] }

/-! ### Eviction lemmas -/

lemma minUpdatedAt_le : ∀ {l : List Session}, ∀ x ∈ l, minUpdatedAt l ≤ x.updated_at := by
  intro l
  induction l with
  | nil => intro x hx; simp at hx
  | cons s rest ih =>
    intro x hx
    cases rest with
    | nil =>
      simp only [List.mem_singleton] at hx
      subst hx
      exact le_refl _
    | cons t ts =>
      rcases List.mem_cons.mp hx with rfl | hx'
      · exact min_le_left _ _
      · exact le_trans (min_le_right _ _) (ih _ hx')

lemma minUpdatedAt_attained : ∀ {l : List Session}, l ≠ [] →
    ∃ x ∈ l, x.updated_at = minUpdatedAt l := by
  intro l
  induction l with
  | nil => intro h; exact absurd rfl h
  | cons s rest ih =>
    intro _
    cases rest with
    | nil => exact ⟨s, List.mem_singleton_self s, rfl⟩
    | cons t ts =>
      rcases le_total s.updated_at (minUpdatedAt (t :: ts)) with hle | hge
      · exact ⟨s, List.mem_cons_self _ _, (min_eq_left hle).symm⟩
      · obtain ⟨x, hx, hxe⟩ := ih (by simp)
        exact ⟨x, List.mem_cons_of_mem s hx, hxe.trans (min_eq_right hge).symm⟩

lemma removeFirstUpdatedAt_length {m : ℕ} : ∀ {l : List Session},
    (∃ x ∈ l, x.updated_at = m) → (removeFirstUpdatedAt m l).length + 1 = l.length := by
  intro l
  induction l with
  | nil => intro h; simp at h
  | cons s rest ih =>
    intro h
    unfold removeFirstUpdatedAt
    split_ifs with hs
    · simp
    · obtain ⟨x, hx, hxe⟩ := h
      rcases List.mem_cons.mp hx with rfl | hx'
      · exact absurd hxe hs
      · simp only [List.length_cons]
        rw [← ih ⟨x, hx', hxe⟩]

lemma removeFirstUpdatedAt_subset {m : ℕ} : ∀ {l : List Session},
    ∀ y ∈ removeFirstUpdatedAt m l, y ∈ l := by
  intro l
  induction l with
  | nil => intro y hy; simp [removeFirstUpdatedAt] at hy
  | cons s rest ih =>
    intro y hy
    unfold removeFirstUpdatedAt at hy
    split_ifs at hy with hs
    · exact List.mem_cons_of_mem s hy
    · rcases List.mem_cons.mp hy with rfl | hy'
      · exact List.mem_cons_self _ _
      · exact List.mem_cons_of_mem s (ih _ hy')

lemma removeFirstUpdatedAt_append {m : ℕ} {l2 : List Session} : ∀ {l1 : List Session},
    (∃ x ∈ l1, x.updated_at = m) →
    removeFirstUpdatedAt m (l1 ++ l2) = removeFirstUpdatedAt m l1 ++ l2 := by
  intro l1
  induction l1 with
  | nil => intro h; simp at h
  | cons s rest ih =>
    intro h
    simp only [List.cons_append]
    unfold removeFirstUpdatedAt
    split_ifs with hs
    · rfl
    · obtain ⟨x, hx, hxe⟩ := h
      rcases List.mem_cons.mp hx with rfl | hx'
      · exact absurd hxe hs
      · rw [List.cons_append, ih ⟨x, hx', hxe⟩]

lemma dictInsert_fresh {l : List Session} {s : Session}
    (h : ∀ x ∈ l, x.session_id ≠ s.session_id) : dictInsert l s = l ++ [s] := by
  unfold dictInsert
  rw [if_neg]
  intro hany
  rw [List.any_eq_true] at hany
  obtain ⟨x, hx, hxe⟩ := hany
  exact h x hx (by simpa using hxe)

lemma dictInsert_length_le (l : List Session) (s : Session) :
    (dictInsert l s).length ≤ l.length + 1 := by
  unfold dictInsert
  split_ifs <;> simp

lemma evictOldestSession_eq {l : List Session} (h : l ≠ []) :
    evictOldestSession l = removeFirstUpdatedAt (minUpdatedAt l) l := by
  cases l with
  | nil => exact absurd rfl h
  | cons a as => rfl

lemma evictOldestSession_length {l : List Session} (h : l ≠ []) :
    (evictOldestSession l).length + 1 = l.length := by
  rw [evictOldestSession_eq h]
  exact removeFirstUpdatedAt_length (minUpdatedAt_attained h)

/-- C3: with `max_sessions = N ≥ 1` and at most `N` stored sessions, every
mutating operation leaves at most `N` sessions, and a `create_session` on a
full store evicts exactly one session — one with the least-recent
`updated_at`. -/
theorem session_capacity_invariant (svc : SessionService) (sid : String) (now : ℕ)
    (stateUpdates : List (String × String)) (analysisResults : Option String)
    (hN : 1 ≤ svc.max_sessions) (hcap : svc.sessions.length ≤ svc.max_sessions) :
    (createSession svc sid now).sessions.length ≤ svc.max_sessions
    ∧ (updateSession svc sid stateUpdates analysisResults now).sessions.length ≤
        svc.max_sessions
    ∧ (deleteSession svc sid).1.sessions.length ≤ svc.max_sessions
    ∧ (clearAllSessions svc).sessions.length ≤ svc.max_sessions
    ∧ (svc.sessions.length = svc.max_sessions →
        (∀ x ∈ svc.sessions, x.session_id ≠ sid) →
        (createSession svc sid now).sessions.length = svc.max_sessions
        ∧ ∃ victim ∈ dictInsert svc.sessions (newSession sid now),
            (∀ x ∈ dictInsert svc.sessions (newSession sid now),
              victim.updated_at ≤ x.updated_at)
            ∧ (createSession svc sid now).sessions =
                removeFirstUpdatedAt victim.updated_at
                  (dictInsert svc.sessions (newSession sid now))) := by
  refine ⟨?_, ?_, ?_, ?_, ?_⟩
  · have hins := dictInsert_length_le svc.sessions (newSession sid now)
    simp only [createSession]
    split_ifs with hgt
    · have hne : dictInsert svc.sessions (newSession sid now) ≠ [] := by
        intro h0
        rw [h0] at hgt
        simp at hgt
      have hlen := evictOldestSession_length hne
      show (evictOldestSession (dictInsert svc.sessions (newSession sid now))).length ≤ _
      omega
    · show (dictInsert svc.sessions (newSession sid now)).length ≤ _
      omega
  · unfold updateSession
    cases hf : svc.sessions.find? (fun s => s.session_id = sid) with
    | none => exact hcap
    | some s => simpa using hcap
  · unfold deleteSession
    split_ifs with hany
    · exact le_trans (List.length_filter_le _ _) hcap
    · exact hcap
  · simp [clearAllSessions]
  · intro hfull hfresh
    have hins : dictInsert svc.sessions (newSession sid now) =
        svc.sessions ++ [newSession sid now] :=
      dictInsert_fresh (fun x hx => hfresh x hx)
    have hlen' : (dictInsert svc.sessions (newSession sid now)).length =
        svc.max_sessions + 1 := by
      rw [hins]
      simp [hfull]
    have hgt : (dictInsert svc.sessions (newSession sid now)).length > svc.max_sessions := by
      omega
    have hne : dictInsert svc.sessions (newSession sid now) ≠ [] := by
      intro h0
      rw [h0] at hlen'
      simp at hlen'
    have hsess : (createSession svc sid now).sessions =
        evictOldestSession (dictInsert svc.sessions (newSession sid now)) := by
      simp only [createSession]
      rw [if_pos hgt]
    obtain ⟨x, hx, hxe⟩ := minUpdatedAt_attained hne
    constructor
    · rw [hsess]
      have := evictOldestSession_length hne
      omega
    · refine ⟨x, hx, ?_, ?_⟩
      · intro y hy
        rw [hxe]
        exact minUpdatedAt_le y hy
      · rw [hsess, hxe]
        exact evictOldestSession_eq hne

/-- Closed witness for `session_capacity_invariant`: with capacity 2,
creating a third session leaves exactly the two most recently updated
sessions. -/
theorem session_capacity_invariant_witness :
    (createSession (createSession (createSession ⟨[], 2⟩ "s1" 1) "s2" 2) "s3" 3).sessions.length ≤ 2
    ∧ (createSession (createSession (createSession ⟨[], 2⟩ "s1" 1) "s2" 2) "s3" 3).sessions
        = [⟨"s2", 2, 2, [], [], none⟩, ⟨"s3", 3, 3, [], [], none⟩] := by
  constructor
  · exact (session_capacity_invariant (createSession (createSession ⟨[], 2⟩ "s1" 1) "s2" 2)
      "s3" 3 [] none (by decide) (by decide)).1
  · decide

/-- C10: assuming timestamps are non-decreasing, `create_session` never
evicts the session it just created — the new session is retrievable
afterwards and anything evicted existed before the call. -/
theorem create_session_keeps_new (svc : SessionService) (sid : String) (now : ℕ)
    (hN : 1 ≤ svc.max_sessions)
    (hfresh : ∀ x ∈ svc.sessions, x.session_id ≠ sid)
    (hts : ∀ x ∈ svc.sessions, x.updated_at ≤ now) :
    getSession (createSession svc sid now) sid = some (newSession sid now)
    ∧ ∀ x ∈ dictInsert svc.sessions (newSession sid now),
        x ∉ (createSession svc sid now).sessions → x ∈ svc.sessions := by
  have hins : dictInsert svc.sessions (newSession sid now) =
      svc.sessions ++ [newSession sid now] :=
    dictInsert_fresh (fun x hx => hfresh x hx)
  have hfind : svc.sessions.find? (fun s => s.session_id = sid) = none := by
    rw [List.find?_eq_none]
    intro x hx
    simpa using hfresh x hx
  have hmain : (createSession svc sid now).sessions =
      svc.sessions ++ [newSession sid now]
      ∨ ((createSession svc sid now).sessions =
          removeFirstUpdatedAt (minUpdatedAt svc.sessions) svc.sessions
            ++ [newSession sid now]
        ∧ svc.sessions ≠ []) := by
    simp only [createSession]
    split_ifs with hgt
    · right
      rw [hins] at hgt ⊢
      have hsne : svc.sessions ≠ [] := by
        intro h0
        rw [h0] at hgt
        simp at hgt
        omega
      refine ⟨?_, hsne⟩
      have hminle : minUpdatedAt svc.sessions ≤ now := by
        obtain ⟨x, hx, hxe⟩ := minUpdatedAt_attained hsne
        rw [← hxe]
        exact hts x hx
      have hmeq : minUpdatedAt (svc.sessions ++ [newSession sid now]) =
          minUpdatedAt svc.sessions := by
        apply le_antisymm
        · obtain ⟨x, hx, hxe⟩ := minUpdatedAt_attained hsne
          rw [← hxe]
          exact minUpdatedAt_le x (by simp [hx])
        · obtain ⟨y, hy, hye⟩ :=
            minUpdatedAt_attained (l := svc.sessions ++ [newSession sid now]) (by simp)
          rw [← hye]
          rcases List.mem_append.mp hy with hy' | hy'
          · exact minUpdatedAt_le y hy'
          · simp only [List.mem_singleton] at hy'
            subst hy'
            exact hminle
      rw [evictOldestSession_eq (by simp), hmeq,
        removeFirstUpdatedAt_append (minUpdatedAt_attained hsne)]
    · left
      exact hins
  have hnew : newSession sid now ∈ (createSession svc sid now).sessions := by
    rcases hmain with h | ⟨h, _⟩ <;> rw [h] <;> simp
  have hget : getSession (createSession svc sid now) sid = some (newSession sid now) := by
    unfold getSession
    rcases hmain with h | ⟨h, hne⟩
    · rw [h, List.find?_append, hfind]
      simp [newSession]
    · rw [h, List.find?_append]
      have : (removeFirstUpdatedAt (minUpdatedAt svc.sessions) svc.sessions).find?
          (fun s => s.session_id = sid) = none := by
        rw [List.find?_eq_none]
        intro x hx
        simpa using hfresh x (removeFirstUpdatedAt_subset x hx)
      rw [this]
      simp [newSession]
  refine ⟨hget, ?_⟩
  intro x hx hnx
  rw [hins] at hx
  rcases List.mem_append.mp hx with hx' | hx'
  · exact hx'
  · simp only [List.mem_singleton] at hx'
    subst hx'
    exact absurd hnew hnx

/-- Closed witness for `create_session_keeps_new`: creating a third session
in a full capacity-2 store keeps the new session retrievable. -/
theorem create_session_keeps_new_witness :
    getSession (createSession (createSession (createSession ⟨[], 2⟩ "s1" 1) "s2" 2) "s3" 3)
        "s3" = some (newSession "s3" 3) :=
  (create_session_keeps_new (createSession (createSession ⟨[], 2⟩ "s1" 1) "s2" 2)
    "s3" 3 (by decide) (by decide) (by decide)).1

/-! ## CLI exit codes (src/main.py) -/

/-- The `severity_exit_codes` dictionary in `main`. -/
def severityExitCodes : List (String × ℕ) :=
  [("low", 0), ("medium", 1), ("high", 2), ("critical", 3)]

/-- `severity_exit_codes.get(severity, 0)`. -/
def exitCodeForSeverity (sev : String) : ℕ :=
  (severityExitCodes.lookup sev).getD 0

/-- The `status` field of the orchestrator result consumed by `main`
(`analyze_repository` returns `success` with a severity, or `error`). -/
inductive RunStatus
  | success (severity : String)
  | error

/-- How one CLI run ends: the awaited result is inspected, or
`KeyboardInterrupt` or another exception escapes inside `main`'s `try`. -/
inductive CliEvent
  | completed (status : RunStatus)
  | keyboardInterrupt
  | uncaughtException

/-- The `sys.exit` argument chosen by `main` for each outcome: severity map
for `status == "success"`, 4 for an error result, 130 for
`KeyboardInterrupt`, and 1 from the final `except Exception` handler. -/
def cliExitCode : CliEvent → ℕ
  | CliEvent.completed (RunStatus.success sev) => exitCodeForSeverity sev
  | CliEvent.completed RunStatus.error => 4
  | CliEvent.keyboardInterrupt => 130
  | CliEvent.uncaughtException => 1

/-- C9 counterexample: a non-interrupt failure path — an exception escaping
`main`'s `try` block — exits with code 1, not with the pipeline-error
code 4. -/
theorem cli_exit_code_counterexample :
    cliExitCode CliEvent.uncaughtException = 1 ∧ cliExitCode CliEvent.uncaughtException ≠ 4 := by
  constructor <;> decide

/-- C9 amended: a success result exits with the severity map (0 low, 1
medium, 2 high, 3 critical), an error result exits 4, a user interrupt
exits 130, and an exception escaping the CLI wrapper itself exits 1. -/
theorem cli_exit_codes_amended :
    (∀ sev, cliExitCode (CliEvent.completed (RunStatus.success sev)) = exitCodeForSeverity sev)
    ∧ exitCodeForSeverity "low" = 0
    ∧ exitCodeForSeverity "medium" = 1
    ∧ exitCodeForSeverity "high" = 2
    ∧ exitCodeForSeverity "critical" = 3
    ∧ cliExitCode (CliEvent.completed RunStatus.error) = 4
    ∧ cliExitCode CliEvent.keyboardInterrupt = 130
    ∧ cliExitCode CliEvent.uncaughtException = 1 := by
  exact ⟨fun _ => rfl, by decide, by decide, by decide, by decide, rfl, rfl, rfl⟩
